import Mathlib

/-!
Verification development for the latex2video slide-extraction engine
(src/latex_parser.py).  The Python source is shallowly embedded over
lists of characters: Python strings become `List Char`, index-based
while loops become fuel-indexed recursions (with fuel chosen to dominate
the loop's own termination measure), and the regular expressions used by
the source are rendered as explicit scanning functions that reproduce
the exact matching discipline of the original patterns (non-greedy
`.*?` = nearest terminator, left-to-right non-overlapping `re.sub` /
`re.findall` scans, negative lookahead over the whitelist, etc.).
-/

abbrev Chars := List Char

/-- Python whitespace set used by str.strip(). -/
def pyIsSpace (c : Char) : Bool :=
  c = ' ' || c = '\t' || c = '\n' || c = '\r' || c = Char.ofNat 11 || c = Char.ofNat 12

/-- Python str.strip(): drop whitespace from both ends. -/
def pyStrip (s : Chars) : Chars :=
  ((s.dropWhile pyIsSpace).reverse.dropWhile pyIsSpace).reverse

/-- Auxiliary scan for Python str.find: first index (counting from k) at
which pat is a prefix of the remaining text. -/
def findAux : Chars → Chars → Nat → Option Nat
  | [], pat, k => if pat = [] then some k else none
  | c :: rest, pat, k =>
    if pat.isPrefixOf (c :: rest) then some k else findAux rest pat (k + 1)

/-- Python content.find(pat, i): absolute index of the first occurrence of
pat at or after position i, none when absent (Python returns -1). -/
def findFrom (s pat : Chars) (i : Nat) : Option Nat :=
  match findAux (s.drop i) pat 0 with
  | some k => some (i + k)
  | none => none

/-- Python `pat in s` substring test. -/
def containsSub (s pat : Chars) : Bool := (findFrom s pat 0).isSome

/-- Python str.split(sep) for a non-empty separator. -/
def splitOnSubGo (sep : Chars) : Nat → Chars → List Chars
  | 0, s => [s]
  | fuel + 1, s =>
    match findFrom s sep 0 with
    | none => [s]
    | some k => s.take k :: splitOnSubGo sep fuel (s.drop (k + sep.length))

def splitOnSub (s sep : Chars) : List Chars := splitOnSubGo sep (s.length + 1) s

/-- Python s.split('\n'). -/
def splitLines (s : Chars) : List Chars := splitOnSub s ['\n']

/-- Python '\n'.join(...). -/
def joinLines (ls : List Chars) : Chars := List.intercalate ['\n'] ls

/-- Python str.replace(find, repl): left-to-right, non-overlapping, the
replacement text is not rescanned. -/
def pyReplaceAllGo (find repl : Chars) : Nat → Chars → Chars
  | 0, s => s
  | fuel + 1, s =>
    match s with
    | [] => []
    | c :: rest =>
      if find.isPrefixOf s then repl ++ pyReplaceAllGo find repl fuel (s.drop find.length)
      else c :: pyReplaceAllGo find repl fuel rest

def pyReplaceAll (s find repl : Chars) : Chars := pyReplaceAllGo find repl s.length s

def isAsciiLetter (c : Char) : Bool := ('a' ≤ c && c ≤ 'z') || ('A' ≤ c && c ≤ 'Z')

def isAsciiDigit (c : Char) : Bool := '0' ≤ c && c ≤ '9'

/-- Regex word character class (for the \b boundary in the whitelist
lookahead): letters, digits, underscore. -/
def isWordChar (c : Char) : Bool := isAsciiLetter c || isAsciiDigit c || c = '_'

/-- ASCII (plus the Portuguese accented letters appearing in the source's
keyword lists) lower-casing, modelling Python str.lower() on the character
repertoire the program manipulates. -/
def pyLower (c : Char) : Char :=
  if 'A' ≤ c && c ≤ 'Z' then Char.ofNat (c.toNat + 32)
  else if c = 'Á' then 'á' else if c = 'Í' then 'í' else if c = 'Ú' then 'ú'
  else if c = 'Ô' then 'ô' else if c = 'É' then 'é' else if c = 'Ã' then 'ã'
  else if c = 'Õ' then 'õ' else if c = 'À' then 'à' else if c = 'Â' then 'â'
  else if c = 'Ê' then 'ê' else if c = 'Ç' then 'ç'
  else c

def lowerChars (s : Chars) : Chars := s.map pyLower

/-! ### Generic re.sub-style scanner

`scanSub try fuel s` walks the text left to right.  At each position the
`try` function either matches (returning the text to emit in place of the
consumed prefix, plus the remaining text after the match — every match
consumes at least one character) or fails, in which case one character is
emitted verbatim and scanning resumes one position later.  This is exactly
the semantics of a single `re.sub` pass: non-overlapping matches found left
to right, replacement text not rescanned. -/
def scanSub (tryf : Chars → Option (Chars × Chars)) : Nat → Chars → Chars
  | 0, s => s
  | _, [] => []
  | fuel + 1, c :: rest =>
    match tryf (c :: rest) with
    | some (emit, remaining) => emit ++ scanSub tryf fuel remaining
    | none => c :: scanSub tryf fuel rest

/-- One full re.sub pass with the canonical fuel (every match consumes at
least one character, so length steps suffice). -/
def subPass (tryf : Chars → Option (Chars × Chars)) (s : Chars) : Chars :=
  scanSub tryf s.length s

/-- Matcher for re.sub(r'%.*?\n', '\n', content): a comment runs from '%'
to the nearest newline; a '%' with no later newline never matches. -/
def tryComment (l : Chars) : Option (Chars × Chars) :=
  match l with
  | [] => none
  | c :: rest =>
    if c = '%' then
      match findFrom rest ['\n'] 0 with
      | some k => some (['\n'], rest.drop (k + 1))
      | none => none
    else none

/-- Balanced-brace scan of latex_parser.py lines 50-55 / 98-103: starting
just inside an opening brace (count 1), consume characters adjusting the
depth until it returns to 0; yields the number of characters consumed
(including the closing brace), or none when the text ends first. -/
def braceEndAux (l : Chars) (count k : Nat) : Option Nat :=
  if count = 0 then some k
  else
    match l with
    | [] => none
    | c :: rest =>
      braceEndAux rest (if c = '{' then count + 1 else if c = '}' then count - 1 else count) (k + 1)

def frametitleMarker : Chars := "\\frametitle\x7b".data

/-- The while-loop of clean_latex_content lines 91-113: repeatedly locate
\frametitle{, remove it together with its balanced-brace argument, or just
the marker itself when the braces never re-balance.  Every iteration
removes at least the 12 marker characters, so fuel = length suffices. -/
def removeFrametitleLoop : Nat → Chars → Chars
  | 0, s => s
  | fuel + 1, s =>
    match findFrom s frametitleMarker 0 with
    | none => s
    | some ts =>
      match braceEndAux (s.drop (ts + 12)) 1 0 with
      | some off => removeFrametitleLoop fuel (s.take ts ++ s.drop (ts + 12 + off))
      | none => removeFrametitleLoop fuel (s.take ts ++ s.drop (ts + 12))

/-! ### Itemize / enumerate / description handling (lines 117-146) -/

def itemTok : Chars := "\\item".data

/-- Item texts of one environment body: re.findall(r'\\item\s*(.*?)(?=\\item|$)')
followed by per-item strip and dropping empty items.  Splitting on the
\item marker, stripping each piece and filtering empties yields the same
list (the \s* and the optional pre-final-newline $ anchor only shave
whitespace that strip removes anyway). -/
def itemPieces (body : Chars) : List Chars :=
  (((splitOnSub body itemTok).drop 1).map pyStrip).filter (· ≠ [])

def formatItems (body : Chars) : Chars :=
  joinLines ((itemPieces body).map (fun it => "- ".data ++ it))

def beginTokOf (env : Chars) : Chars := "\\begin\x7b".data ++ env ++ ['\x7d']

def endTokOf (env : Chars) : Chars := "\\end\x7b".data ++ env ++ ['\x7d']

def listEnvNames : List Chars := ["itemize".data, "enumerate".data, "description".data]

/-- One match attempt of the finditer pattern
\begin{(itemize|enumerate|description)}(.*?)\end{\1} at the current
position: returns (whole match, body, text after the match). -/
def tryEnvAt (l : Chars) : Option (Chars × Chars × Chars) :=
  listEnvNames.findSome? fun e =>
    let b := beginTokOf e
    if b.isPrefixOf l then
      let after := l.drop b.length
      match findFrom after (endTokOf e) 0 with
      | some k =>
        some (b ++ after.take k ++ endTokOf e, after.take k, after.drop (k + (endTokOf e).length))
      | none => none
    else none

/-- finditer over the environment pattern: left-to-right non-overlapping
matches, scanning resumes after each match. -/
def findEnvMatches : Nat → Chars → List (Chars × Chars)
  | 0, _ => []
  | _, [] => []
  | fuel + 1, c :: rest =>
    match tryEnvAt (c :: rest) with
    | some (whole, body, remaining) => (whole, body) :: findEnvMatches fuel remaining
    | none => findEnvMatches fuel rest

/-- re.sub(r'\\item\s*.*', '', content, DOTALL): with DOTALL the greedy .*
swallows everything from the first \item to the end of the string. -/
def truncateAtItem (s : Chars) : Chars :=
  match findFrom s itemTok 0 with
  | some k => s.take k
  | none => s

/-- clean_latex_content lines 117-146: replace each matched list
environment by its formatted items (str.replace replaces all occurrences);
when no environment matched but \item occurs, extract the items from the
whole text, drop everything from the first \item on, and append the
formatted list. -/
def itemizePhase (s : Chars) : Chars :=
  let ms := findEnvMatches s.length s
  if ms = [] then
    if containsSub s itemTok then
      let items := itemPieces s
      if items = [] then s
      else truncateAtItem s ++ '\n' :: formatItems s
    else s
  else
    ms.foldl (fun acc m => pyReplaceAll acc m.1 (formatItems m.2)) s

/-! ### Math / matrix environment tag removal (lines 150-157) -/

/-- Matcher for re.sub(r'\\begin\{ENV\*?\}', ''): the greedy \*? tries the
starred literal first, then the plain one. -/
def tryLitOpt (base : Chars) (l : Chars) : Option (Chars × Chars) :=
  let long := base ++ "*\x7d".data
  let short := base ++ ['\x7d']
  if long.isPrefixOf l then some ([], l.drop long.length)
  else if short.isPrefixOf l then some ([], l.drop short.length)
  else none

/-- Matcher for a plain literal removal (matrix environments carry no star
in the pattern). -/
def tryLit (tok : Chars) (l : Chars) : Option (Chars × Chars) :=
  if tok.isPrefixOf l then some ([], l.drop tok.length) else none

def mathEnvNames : List Chars :=
  ["align".data, "eqnarray".data, "equation".data, "gather".data, "multline".data]

def matrixEnvNames : List Chars :=
  ["pmatrix".data, "bmatrix".data, "vmatrix".data, "Vmatrix".data, "matrix".data]

def beginPre (env : Chars) : Chars := "\\begin\x7b".data ++ env

def endPre (env : Chars) : Chars := "\\end\x7b".data ++ env

def mathEnvPass (s : Chars) : Chars :=
  mathEnvNames.foldl
    (fun acc e => subPass (tryLitOpt (endPre e)) (subPass (tryLitOpt (beginPre e)) acc)) s

def matrixEnvPass (s : Chars) : Chars :=
  matrixEnvNames.foldl
    (fun acc e => subPass (tryLit (endTokOf e)) (subPass (tryLit (beginTokOf e)) acc)) s

/-! ### Inline / display math delimiter removal (lines 178-237) -/

/-- The $$-, \(- and \[-style while loops of clean_latex_content: find the
opening delimiter from position i, find the closing delimiter after it,
keep the inner text, drop both delimiters, and resume at
start + len(inner); stop when either find fails.  Each iteration removes
the two delimiters, so fuel = length dominates. -/
def delimLoop (op cl : Chars) : Nat → Chars → Nat → Chars
  | 0, s, _ => s
  | fuel + 1, s, i =>
    match findFrom s op i with
    | none => s
    | some start =>
      match findFrom s cl (start + op.length) with
      | none => s
      | some e =>
        let math := (s.drop (start + op.length)).take (e - (start + op.length))
        delimLoop op cl fuel (s.take start ++ math ++ s.drop (e + cl.length)) (start + math.length)

/-- The single-dollar while loop (lines 194-207), including the skip of a
'$' directly preceded by another '$' (part of a $$ pair). -/
def singleDollarLoop : Nat → Chars → Nat → Chars
  | 0, s, _ => s
  | fuel + 1, s, i =>
    match findFrom s ['$'] i with
    | none => s
    | some start =>
      if 0 < start && s.get? (start - 1) = some '$' then
        singleDollarLoop fuel s (start + 1)
      else
        match findFrom s ['$'] (start + 1) with
        | none => s
        | some e =>
          let math := (s.drop (start + 1)).take (e - (start + 1))
          singleDollarLoop fuel (s.take start ++ math ++ s.drop (e + 1)) (start + math.length)

/-! ### Image, text-formatting and generic command removal (lines 240-267) -/

def includegraphicsTok : Chars := "\\includegraphics".data

/-- Candidate scan for the optional [..] group of the includegraphics
pattern: regex backtracking tries successive ']' positions until one is
followed by a braced group. -/
def imageBracketScan : Nat → Chars → Nat → Option (Chars × Chars)
  | 0, _, _ => none
  | fuel + 1, r, j =>
    match findFrom r [']'] j with
    | none => none
    | some k =>
      match r.drop (k + 1) with
      | '{' :: r2 =>
        (match findFrom r2 ['\x7d'] 0 with
         | some m => some ("[Image: ".data ++ r2.take m ++ [']'], r2.drop (m + 1))
         | none => imageBracketScan fuel r (k + 1))
      | _ => imageBracketScan fuel r (k + 1)

/-- Matcher for re.sub(r'\\includegraphics(?:\[.*?\])?\{.*?\}', replace_image):
the replacement extracts the braced path and renders "[Image: path]". -/
def tryIncludegraphics (l : Chars) : Option (Chars × Chars) :=
  if includegraphicsTok.isPrefixOf l then
    match l.drop 16 with
    | '[' :: r1 => imageBracketScan (r1.length + 1) r1 0
    | '{' :: r1 =>
      (match findFrom r1 ['\x7d'] 0 with
       | some m => some ("[Image: ".data ++ r1.take m ++ [']'], r1.drop (m + 1))
       | none => none)
    | _ => none
  else none

/-- Matcher for re.sub(r'\\CMD\{(.*?)\}', r'\1'): unwrap a formatting
command, keeping the (non-greedy, so nearest-brace) inner text. -/
def tryUnwrapCmd (cmd : Chars) (l : Chars) : Option (Chars × Chars) :=
  let tok := '\\' :: cmd ++ ['\x7b']
  if tok.isPrefixOf l then
    let rest := l.drop tok.length
    match findFrom rest ['\x7d'] 0 with
    | some k => some (rest.take k, rest.drop (k + 1))
    | none => none
  else none

/-- The whitelist of essential math commands (lines 240-245). -/
def mathCommands : List Chars :=
  ["frac".data, "sqrt".data, "int".data, "sum".data, "prod".data, "lim".data,
   "infty".data, "partial".data,
   "alpha".data, "beta".data, "gamma".data, "delta".data, "epsilon".data,
   "zeta".data, "eta".data, "theta".data,
   "iota".data, "kappa".data, "lambda".data, "mu".data, "nu".data, "xi".data,
   "pi".data, "rho".data, "sigma".data,
   "tau".data, "upsilon".data, "phi".data, "chi".data, "psi".data, "omega".data]

/-- The negative lookahead (?!(?:frac|...)\b) evaluated at the position
right after the backslash: blocked when some whitelisted word is a prefix
of the remaining text with a word boundary after it. -/
def lookaheadBlocked (white : List Chars) (rest : Chars) : Bool :=
  white.any fun w =>
    w.isPrefixOf rest &&
      (match rest.drop w.length with
       | [] => true
       | c :: _ => !isWordChar c)

/-- The trailing (\{.*?\}|\[.*?\])* of the command pattern: consume brace
or bracket groups (non-greedy inner, so to the nearest closer) as long as
they are well formed; a dangling opener ends the star. -/
def groupChomp : Nat → Chars → Chars
  | 0, l => l
  | fuel + 1, l =>
    match l with
    | '{' :: rest =>
      (match findFrom rest ['\x7d'] 0 with
       | some k => groupChomp fuel (rest.drop (k + 1))
       | none => l)
    | '[' :: rest =>
      (match findFrom rest [']'] 0 with
       | some k => groupChomp fuel (rest.drop (k + 1))
       | none => l)
    | _ => l

/-- Matcher for re.sub over \\(?!whitelist\b)[a-zA-Z]+(\{.*?\}|\[.*?\])*:
a backslash followed by letters, not blocked by the lookahead, is removed
together with its trailing groups.  With an empty whitelist this is the
aggressive fallback pattern \\[a-zA-Z]+(\{.*?\}|\[.*?\])*. -/
def tryCommandWith (white : List Chars) (l : Chars) : Option (Chars × Chars) :=
  match l with
  | [] => none
  | c :: rest =>
    if c = '\\' then
      let letters := rest.takeWhile isAsciiLetter
      if letters = [] then none
      else if lookaheadBlocked white rest then none
      else some ([], groupChomp rest.length (rest.drop letters.length))
    else none

/-! ### Final line normalisation and the full pipeline (lines 269-287) -/

/-- Lines 270-273: strip the whole text, strip each line, drop empty
lines, re-join with newlines. -/
def pyNormalizeLines (s : Chars) : Chars :=
  joinLines (((splitLines (pyStrip s)).map pyStrip).filter (· ≠ []))

def phaseComment (s : Chars) : Chars := subPass tryComment s

def phaseFrametitle (s : Chars) : Chars := removeFrametitleLoop s.length s

def phaseDoubleDollar (s : Chars) : Chars := delimLoop "$$".data "$$".data s.length s 0

def phaseSingleDollar (s : Chars) : Chars := singleDollarLoop (3 * s.length + 3) s 0

def phaseParenMath (s : Chars) : Chars := delimLoop "\\(".data "\\)".data s.length s 0

def phaseBracketMath (s : Chars) : Chars := delimLoop "\\[".data "\\]".data s.length s 0

def phaseImage (s : Chars) : Chars := subPass tryIncludegraphics s

def unwrapCmdNames : List Chars :=
  ["textbf".data, "textit".data, "emph".data, "underline".data]

def phaseUnwrapAll (s : Chars) : Chars :=
  unwrapCmdNames.foldl (fun acc c => subPass (tryUnwrapCmd c) acc) s

def phaseCommands (s : Chars) : Chars := subPass (tryCommandWith mathCommands) s

/-- The aggressive last-resort pass of lines 276-285, applied to the
original input: strip all commands with their groups, then delete every
brace and backslash, then normalise lines. -/
def aggressivePass (original : Chars) : Chars :=
  let t := subPass (tryCommandWith []) original
  pyNormalizeLines (t.filter fun c => !(c = '{' || c = '}' || c = '\\'))

/-- clean_latex_content (lines 82-287), as the ordered composition of the
transformation passes. -/
def cleanCore (content : Chars) : Chars :=
  let c := phaseComment content
  let c := phaseFrametitle c
  let c := itemizePhase c
  let c := mathEnvPass c
  let c := matrixEnvPass c
  let c := phaseDoubleDollar c
  let c := phaseSingleDollar c
  let c := phaseParenMath c
  let c := phaseBracketMath c
  let c := phaseImage c
  let c := phaseUnwrapAll c
  let c := phaseCommands c
  let c := pyNormalizeLines c
  if pyStrip c = [] then aggressivePass content else c

def clean_latex_content (s : String) : String := String.mk (cleanCore s.data)

/-! ### extract_frame_title (lines 35-79) -/

def untitledFrame : Chars := "Untitled Frame".data

/-- Tier 1 of extract_frame_title: locate \frametitle{ and scan to the
balanced closing brace; the slice excludes the closing brace and is
stripped.  Falls back to the sentinel when the marker is absent or the
braces never balance. -/
def frameTitleTier1 (f : Chars) : Chars :=
  match findFrom f frametitleMarker 0 with
  | some ts =>
    (match braceEndAux (f.drop (ts + 12)) 1 0 with
     | some off => pyStrip ((f.drop (ts + 12)).take (off - 1))
     | none => untitledFrame)
  | none => untitledFrame

/-- Tier 2: re.search(r'\\frametitle\{(.*?)\}', f, DOTALL) — the first
marker occurrence with some later closing brace, inner text to the nearest
brace, stripped. -/
def frameTitleTier2 (f : Chars) : Chars :=
  match findFrom f frametitleMarker 0 with
  | some ts =>
    (match findFrom f ['\x7d'] (ts + 12) with
     | some e => pyStrip ((f.drop (ts + 12)).take (e - (ts + 12)))
     | none => untitledFrame)
  | none => untitledFrame

def contTok : Chars := "Continuation of".data

/-- Tier 3: clean the content and take the first stripped line that is
non-empty, does not start with '-' and does not start with
"Continuation of". -/
def frameTitleTier3 (f : Chars) : Chars :=
  let cleaned := cleanCore f
  let ls := (splitLines (pyStrip cleaned)).map pyStrip
  match ls.find? (fun l =>
      !l.isEmpty && !(l.head? = some '-') && !(contTok.isPrefixOf l)) with
  | some l => l
  | none => untitledFrame

/-- extract_frame_title: the tiered fallback; each later tier runs only
when the title so far still equals the sentinel. -/
def extract_frame_titleCore (f : Chars) : Chars :=
  let t1 := frameTitleTier1 f
  let t2 := if t1 = untitledFrame then frameTitleTier2 f else t1
  if t2 = untitledFrame then frameTitleTier3 f else t2

def extract_frame_title (s : String) : String := String.mk (extract_frame_titleCore s.data)

/-! ### The Slide record and the alignment stage (lines 25-33, 488-612) -/

structure Slide where
  frame_number : Nat
  title : Chars
  content : Chars
deriving DecidableEq, Repr

/-- Lines 494-536: the page-count probe outcome is abstracted as an
optional integer (none = no candidate PDF existed, the pdfinfo subprocess
raised, or its output carried no page line — pdf_page_count stays 0 in
each of those cases); a probe value of 0 likewise leaves the zero default.
When the count is still 0 it is estimated as frame count + 2. -/
def resolvePageCount (probe : Option Nat) (frameCount : Nat) : Nat :=
  let c := probe.getD 0
  if c = 0 then frameCount + 2 else c

def hasTitlepage (f : Chars) : Bool := containsSub f "\\titlepage".data

def isOutlineFrame (f : Chars) : Bool :=
  containsSub f "\\tableofcontents".data || containsSub f "Outline".data ||
    containsSub f "Sumário".data

/-- The enumerate-with-break search of lines 548-553. -/
def findOutlineIdx : List Chars → Nat → Option Nat
  | [], _ => none
  | f :: rest, i => if isOutlineFrame f then some i else findOutlineIdx rest (i + 1)

def defaultOutlineText : String := "This slide shows the outline of the presentation."

def placeholderFor (title : Chars) : Chars :=
  "This slide covers ".data ++ title ++ ['.']

/-- Lines 592-597: the cleaned content of a frame, or the generated
placeholder when cleaning leaves only whitespace. -/
def slideContentOf (f : Chars) : Chars :=
  let cc := cleanCore f
  if pyStrip cc = [] then placeholderFor (extract_frame_titleCore f) else cc

/-- The content loop of lines 578-609: enumerate the frames (the index
counts skipped frames too), skip any frame containing \titlepage, stop as
soon as the frame number would exceed the page count, and otherwise emit a
slide with the extracted title and cleaned content. -/
def processFrames : List Chars → Nat → Nat → List Slide
  | [], _, _ => []
  | f :: rest, idx, n =>
    if hasTitlepage f then processFrames rest (idx + 1) n
    else if idx + 3 > n then []
    else
      { frame_number := idx + 3,
        title := extract_frame_titleCore f,
        content := slideContentOf f } :: processFrames rest (idx + 1) n

def titleSlideOf (docTitle docAuthor : Chars) : Slide :=
  { frame_number := 1, title := "Title Page".data,
    content := "Title: ".data ++ docTitle ++ '\n' :: "Author: ".data ++ docAuthor }

def defaultOutlineSlide : Slide :=
  { frame_number := 2, title := "Outline".data, content := defaultOutlineText.data }

/-- Lines 538-612: title slide, outline slide (extracted from the first
outline-looking frame, which is then popped from the working list, or a
default), then the content loop. -/
def alignSlides (frames : List Chars) (docTitle docAuthor : Chars) (n : Nat) : List Slide :=
  match findOutlineIdx frames 0 with
  | none => titleSlideOf docTitle docAuthor :: defaultOutlineSlide :: processFrames frames 0 n
  | some k =>
    let oc := cleanCore (frames.getD k [])
    let oc2 := if pyStrip oc = [] then defaultOutlineText.data else oc
    titleSlideOf docTitle docAuthor ::
      { frame_number := 2, title := "Outline".data, content := oc2 } ::
        processFrames (frames.eraseIdx k) 0 n

/-- Lines 488-612 with the frame list already scanned: resolve the page
count (the frame count is taken before the outline frame is popped) and
align. -/
def parseStructured (frames : List Chars) (docTitle docAuthor : Chars)
    (probe : Option Nat) : List Slide :=
  alignSlides frames docTitle docAuthor (resolvePageCount probe frames.length)

/-! ### Frame scanning (lines 428-486) -/

def beginFrameTok : Chars := "\\begin\x7bframe\x7d".data

def endFrameTok : Chars := "\\end\x7bframe\x7d".data

/-- Pattern 1: re.findall(r'\\begin\{frame\}(.*?)\\end\{frame\}', DOTALL) —
left-to-right, non-overlapping, body up to the nearest end tag; a begin
tag with no later end tag matches nothing and scanning moves on. -/
def findall1Go : Nat → Chars → List Chars
  | 0, _ => []
  | _, [] => []
  | fuel + 1, c :: rest =>
    if beginFrameTok.isPrefixOf (c :: rest) then
      let after := (c :: rest).drop 13
      match findFrom after endFrameTok 0 with
      | some k => after.take k :: findall1Go fuel (after.drop (k + 11))
      | none => findall1Go fuel rest
    else findall1Go fuel rest

def findall1 (s : Chars) : List Chars := findall1Go s.length s

def beginFrameOptTok : Chars := "\\begin\x7bframe\x7d[".data

/-- Pattern 2: re.findall(r'\\begin\{frame\}\[(.*?)\](.*?)\\end\{frame\}').
The non-greedy bracket group closes at the nearest ']'; the body then runs
to the nearest end tag after it (if the nearest ']' has no later end tag,
no later ']' has one either, so the whole position fails). -/
def findall2Go : Nat → Chars → List (Chars × Chars)
  | 0, _ => []
  | _, [] => []
  | fuel + 1, c :: rest =>
    if beginFrameOptTok.isPrefixOf (c :: rest) then
      let after := (c :: rest).drop 14
      match findFrom after [']'] 0 with
      | some k =>
        (match findFrom after endFrameTok (k + 1) with
         | some e =>
           (after.take k, (after.drop (k + 1)).take (e - (k + 1))) ::
             findall2Go fuel (after.drop (e + 11))
         | none => findall2Go fuel rest)
      | none => findall2Go fuel rest
    else findall2Go fuel rest

def findall2 (s : Chars) : List Chars := (findall2Go s.length s).map (·.2)

def beginFrameTitleTok : Chars := "\\begin\x7bframe\x7d\x7b".data

/-- Pattern 4: re.findall(r'\\begin\{frame\}\{(.*?)\}(.*?)\\end\{frame\}'),
analogous to pattern 2 with braces. -/
def findall4Go : Nat → Chars → List (Chars × Chars)
  | 0, _ => []
  | _, [] => []
  | fuel + 1, c :: rest =>
    if beginFrameTitleTok.isPrefixOf (c :: rest) then
      let after := (c :: rest).drop 14
      match findFrom after ['\x7d'] 0 with
      | some k =>
        (match findFrom after endFrameTok (k + 1) with
         | some e =>
           (after.take k, (after.drop (k + 1)).take (e - (k + 1))) ::
             findall4Go fuel (after.drop (e + 11))
         | none => findall4Go fuel rest)
      | none => findall4Go fuel rest
    else findall4Go fuel rest

def findall4 (s : Chars) : List Chars := (findall4Go s.length s).map (·.2)

def frameCmdTok : Chars := "\\frame\x7b".data

/-- The body grammar of pattern 3, [^{}]*(?:\{[^{}]*\}[^{}]*)*, followed by
the closing brace: one level of brace nesting is accepted, a second level
or a missing closer fails.  Returns the captured body and the number of
characters consumed including the final brace.  The char classes make the
grammar deterministic, so regex backtracking adds no further matches. -/
def frameBodyGo : Nat → Bool → Chars → Chars → Nat → Option (Chars × Nat)
  | 0, _, _, _, _ => none
  | fuel + 1, inB, l, acc, used =>
    match l with
    | [] => none
    | '\x7d' :: rest =>
      if inB then frameBodyGo fuel false rest ('\x7d' :: acc) (used + 1)
      else some (acc.reverse, used + 1)
    | '{' :: rest =>
      if inB then none
      else frameBodyGo fuel true rest ('{' :: acc) (used + 1)
    | c :: rest => frameBodyGo fuel inB rest (c :: acc) (used + 1)

/-- The (?<!title) lookbehind: the five characters ending just before
position i spell "title". -/
def lookbehindTitle (s : Chars) (i : Nat) : Bool :=
  5 ≤ i && ((s.drop (i - 5)).take 5 = "title".data)

/-- Pattern 3: re.findall(r'(?<!title)\\frame\{([^{}]*(?:\{[^{}]*\}[^{}]*)*)\}'). -/
def findall3Go (s : Chars) : Nat → Nat → List Chars
  | 0, _ => []
  | fuel + 1, i =>
    if i < s.length then
      if frameCmdTok.isPrefixOf (s.drop i) && !lookbehindTitle s i then
        match frameBodyGo (s.length + 1) false (s.drop (i + 7)) [] 0 with
        | some (body, used) => body :: findall3Go s fuel (i + 7 + used)
        | none => findall3Go s fuel (i + 1)
      else findall3Go s fuel (i + 1)
    else []

def findall3 (s : Chars) : List Chars := findall3Go s (s.length + 1) 0

/-- Lines 428-458: the four extraction strategies applied to the whole
source in order, their hits concatenated. -/
def scanFrames (s : Chars) : List Chars :=
  findall1 s ++ findall2 s ++ findall3 s ++ findall4 s

/-- finditer positions of a literal token, non-overlapping. -/
def findAllOccGo (pat : Chars) : Nat → Chars → Nat → List Nat
  | 0, _, _ => []
  | fuel + 1, s, i =>
    match findFrom s pat i with
    | none => []
    | some k => k :: findAllOccGo pat fuel s (k + pat.length)

def findAllOcc (s pat : Chars) : List Nat := findAllOccGo pat (s.length + 1) s 0

/-- Lines 461-476: position-based matching — pair the i-th begin tag with
the i-th end tag and keep the slice when the begin precedes the end. -/
def positionalFrames (s : Chars) : List Chars :=
  ((findAllOcc s beginFrameTok).zip (findAllOcc s endFrameTok)).filterMap
    fun p => if p.1 < p.2 then some ((s.drop (p.1 + 13)).take (p.2 - (p.1 + 13))) else none

/-- re.search(r'\\title\{(.*?)\}') / re.search(r'\\author\{(.*?)\}') with
group(1).strip(), defaulted when the search fails (lines 489-492). -/
def searchGroupStripped (s tok dflt : Chars) : Chars :=
  match findFrom s tok 0 with
  | some ts =>
    (match findFrom s ['\x7d'] (ts + tok.length) with
     | some e => pyStrip ((s.drop (ts + tok.length)).take (e - (ts + tok.length)))
     | none => dflt)
  | none => dflt

/-! ### The PDF fallback path (lines 291-402) -/

def outlineKeywords : List Chars :=
  ["outline".data, "contents".data, "agenda".data, "sumário".data,
   "índice".data, "conteúdo".data]

def isOutlineText (t : Chars) : Bool :=
  outlineKeywords.any fun k => containsSub (lowerChars t) k

/-- The per-page content loop of lines 370-399: skip blank pages; take as
title the first of the first three lines whose stripped text is non-empty
and does not start with '-', with the remaining raw lines joined as
content; otherwise the whole stripped page text is the content. -/
def pdfContentGo : List Chars → Nat → List Slide
  | [], _ => []
  | p :: rest, i =>
    let pt := pyStrip p
    if pt = [] then pdfContentGo rest (i + 1)
    else
      let lines := splitLines pt
      match (List.range (min 3 lines.length)).find? (fun j =>
          let l := pyStrip (lines.getD j [])
          !l.isEmpty && !(l.head? = some '-')) with
      | some j =>
        { frame_number := i + 1, title := pyStrip (lines.getD j []),
          content := joinLines (lines.drop (j + 1)) } :: pdfContentGo rest (i + 1)
      | none =>
        { frame_number := i + 1, title := "Untitled Slide".data,
          content := pt } :: pdfContentGo rest (i + 1)

/-- Lines 313-402: build the slide list from the form-feed-separated page
texts: a synthesised title slide from page 1's non-blank lines, an outline
slide from page 2 when it matches an outline keyword (else a default one,
with page 2 treated as content), then one slide per remaining non-blank
page. -/
def parse_pdf_pages (pages : List Chars) : List Slide :=
  let titlePart : List Slide :=
    match pages with
    | [] => []
    | p0 :: _ =>
      let tlines := (splitLines (pyStrip p0)).filter (fun l => pyStrip l ≠ [])
      let t := tlines.getD 0 "Presentation Title".data
      let a := tlines.getD 1 []
      [{ frame_number := 1, title := "Title Page".data,
         content := "Title: ".data ++ t ++ '\n' :: "Author: ".data ++ a }]
  let outlinePart : List Slide × Nat :=
    match pages with
    | _ :: p1 :: _ =>
      let ot := pyStrip p1
      if isOutlineText ot then ([{ frame_number := 2, title := "Outline".data, content := ot }], 2)
      else ([defaultOutlineSlide], 1)
    | _ => ([defaultOutlineSlide], 1)
  titlePart ++ outlinePart.1 ++ pdfContentGo (pages.drop outlinePart.2) outlinePart.2

/-- parse_pdf_file (lines 291-402): none / empty extracted text and a
failing pdfinfo subprocess each return the empty list; otherwise the pages
are the form-feed-separated chunks of the extracted text.  (The parsed
page count itself is only logged, never used.) -/
def parse_pdf_file_model (extracted : Option Chars) (probeFailed : Bool) : List Slide :=
  match extracted with
  | none => []
  | some t =>
    if t = [] then []
    else if probeFailed then []
    else parse_pdf_pages (splitOnSub t [Char.ofNat 12])

/-! ### The parse entry point (lines 404-426 and the full pipeline) -/

/-- Outcome of opening and reading the source file. -/
inductive ReadOutcome where
  | ok (content : Chars)
  | notFound
  | readError
deriving DecidableEq

/-- parse_latex_file.  pdfDirect models the .pdf-extension branch of lines
406-409 (some r = the path ended in .pdf and parse_pdf_file returned r);
samePdf models lines 418-423 (some r = a PDF with the source's base name
existed and parse_pdf_file returned r).  A FileNotFoundError is caught and
degrades to that fallback or to []; any other read error is caught and
yields [].  On a readable source, the four scan strategies run, then the
position-based fallback; if the frame list is still empty, line 479
evaluates the not-yet-assigned local pdf_page_count and the function
raises an uncaught UnboundLocalError, modelled as the error outcome. -/
def parse_latex_entry (pdfDirect : Option (List Slide)) (read : ReadOutcome)
    (samePdf : Option (List Slide)) (probe : Option Nat) : Except Unit (List Slide) :=
  match pdfDirect with
  | some r => .ok r
  | none =>
    match read with
    | .notFound => .ok (samePdf.getD [])
    | .readError => .ok []
    | .ok content =>
      let fs0 := scanFrames content
      let fs := if fs0 = [] then positionalFrames content else fs0
      if fs = [] then .error ()
      else
        let t := searchGroupStripped content "\\title\x7b".data "Presentation Title".data
        let a := searchGroupStripped content "\\author\x7b".data []
        .ok (parseStructured fs t a probe)

/-! ## Lemmas

### Basic facts about the string utilities -/

theorem mem_dropWhile_of_not {p : Char → Bool} {x : Char} :
    ∀ {l : Chars}, x ∈ l → p x = false → x ∈ l.dropWhile p
  | [], hx, _ => absurd hx (List.not_mem_nil x)
  | c :: rest, hx, hpx => by
    by_cases hc : p c
    · rw [List.dropWhile_cons_of_pos hc]
      rcases List.mem_cons.mp hx with rfl | hx'
      · rw [hc] at hpx; cases hpx
      · exact mem_dropWhile_of_not hx' hpx
    · rw [List.dropWhile_cons_of_neg hc]
      exact hx

/-- A string containing a non-whitespace character does not strip to
empty. -/
theorem pyStrip_ne_nil {s : Chars} {x : Char} (hx : x ∈ s) (hxs : pyIsSpace x = false) :
    pyStrip s ≠ [] := by
  intro h
  have h1 : List.dropWhile pyIsSpace ((s.dropWhile pyIsSpace).reverse) = [] := by
    simpa [pyStrip, List.reverse_eq_nil_iff] using h
  have h2 := (List.dropWhile_eq_nil_iff).mp h1
  have hx1 : x ∈ s.dropWhile pyIsSpace := mem_dropWhile_of_not hx hxs
  have := h2 x (List.mem_reverse.mpr hx1)
  rw [hxs] at this
  cases this

theorem findAux_eq_none {c₀ : Char} {pat' : Chars} :
    ∀ {l : Chars} (k : Nat), c₀ ∉ l → findAux l (c₀ :: pat') k = none
  | [], k, _ => by simp [findAux]
  | c :: rest, k, h => by
    have hc : (c₀ == c) = false := by
      refine beq_eq_false_iff_ne.mpr fun he => h ?_
      exact he ▸ List.mem_cons_self c rest
    have hpf : (c₀ :: pat').isPrefixOf (c :: rest) = false := by
      show ((c₀ == c) && pat'.isPrefixOf rest) = false
      rw [hc, Bool.false_and]
    rw [findAux, hpf]
    simp only [Bool.false_eq_true, if_false]
    exact findAux_eq_none (k + 1) fun hm => h (List.mem_cons_of_mem c hm)

theorem findFrom_eq_none {c₀ : Char} {pat' s : Chars} (h : c₀ ∉ s) (i : Nat) :
    findFrom s (c₀ :: pat') i = none := by
  have hd : c₀ ∉ s.drop i := fun hm => h (List.mem_of_mem_drop hm)
  simp [findFrom, findAux_eq_none 0 hd]

theorem containsSub_eq_false {c₀ : Char} {pat' s : Chars} (h : c₀ ∉ s) :
    containsSub s (c₀ :: pat') = false := by
  simp [containsSub, findFrom_eq_none h 0]

theorem isPrefixOf_append_self : ∀ (l t : Chars), l.isPrefixOf (l ++ t) = true
  | [], _ => by simp [List.isPrefixOf]
  | c :: cs, t => by
    show ((c == c) && cs.isPrefixOf (cs ++ t)) = true
    rw [beq_self_eq_true, Bool.true_and]
    exact isPrefixOf_append_self cs t

theorem isPrefixOf_self (l : Chars) : l.isPrefixOf l = true := by
  have := isPrefixOf_append_self l []
  rwa [List.append_nil] at this

theorem findAux_append_hit {c₀ : Char} {pat' : Chars} :
    ∀ (pre : Chars) {rest : Chars} (k : Nat), c₀ ∉ pre →
      (c₀ :: pat').isPrefixOf rest = true →
      findAux (pre ++ rest) (c₀ :: pat') k = some (k + pre.length)
  | [], rest, k, _, hpf => by
    cases rest with
    | nil => cases hpf
    | cons r rs => simp [findAux, hpf]
  | c :: pre', rest, k, hc, hpf => by
    have hne : (c₀ == c) = false := by
      refine beq_eq_false_iff_ne.mpr fun he => hc ?_
      exact he ▸ List.mem_cons_self c pre'
    have hp : (c₀ :: pat').isPrefixOf (c :: (pre' ++ rest)) = false := by
      show ((c₀ == c) && pat'.isPrefixOf (pre' ++ rest)) = false
      rw [hne, Bool.false_and]
    rw [List.cons_append, findAux, hp]
    simp only [Bool.false_eq_true, if_false]
    rw [findAux_append_hit pre' (k + 1) (fun hm => hc (List.mem_cons_of_mem c hm)) hpf]
    simp [Nat.add_assoc, Nat.add_comm 1]

theorem findFrom_append_hit {c₀ : Char} {pat' : Chars} (pre : Chars) {rest : Chars}
    (hc : c₀ ∉ pre) (hpf : (c₀ :: pat').isPrefixOf rest = true) :
    findFrom (pre ++ rest) (c₀ :: pat') 0 = some pre.length := by
  simp [findFrom, findAux_append_hit pre 0 hc hpf]

/-! ### Identity of the substitution passes on trigger-free text -/

theorem suffix_head_ne {s t : Chars} {c₀ : Char} (hsuf : t <:+ s) (hc : c₀ ∉ s) :
    t.head? ≠ some c₀ := by
  cases t with
  | nil => simp
  | cons c cs =>
    intro h
    have hcc : c = c₀ := by simpa using h
    exact hc (hcc ▸ hsuf.subset (List.mem_cons_self c cs))

theorem head?_append_of_head {l l2 : Chars} {c₀ : Char} (h : l.head? = some c₀) :
    (l ++ l2).head? = some c₀ := by
  cases l with
  | nil => simp at h
  | cons a as => simpa using h

theorem isPrefixOf_eq_false_of_head {c₀ : Char} {tok l : Chars}
    (htok : tok.head? = some c₀) (hl : l.head? ≠ some c₀) : tok.isPrefixOf l = false := by
  cases tok with
  | nil => simp at htok
  | cons t ts =>
    cases l with
    | nil => rfl
    | cons c cs =>
      have ht : t = c₀ := by simpa using htok
      have hne : (t == c) = false := by
        refine beq_eq_false_iff_ne.mpr fun he => hl ?_
        rw [← he, ht] at *
        simp [← he, ht]
      show ((t == c) && ts.isPrefixOf cs) = false
      rw [hne, Bool.false_and]

theorem scanSub_id (tryf : Chars → Option (Chars × Chars)) :
    ∀ (fuel : Nat) (s : Chars), (∀ t, t <:+ s → tryf t = none) → scanSub tryf fuel s = s
  | 0, s, _ => by cases s <;> rfl
  | _ + 1, [], _ => rfl
  | fuel + 1, c :: rest, h => by
    simp only [scanSub, h (c :: rest) (List.suffix_refl _)]
    exact congrArg (c :: ·)
      (scanSub_id tryf fuel rest fun t ht => h t (ht.trans (List.suffix_cons c rest)))

theorem subPass_id {tryf : Chars → Option (Chars × Chars)} {s : Chars}
    (h : ∀ t, t <:+ s → tryf t = none) : subPass tryf s = s :=
  scanSub_id tryf s.length s h

theorem tryComment_eq_none {l : Chars} (h : l.head? ≠ some '%') : tryComment l = none := by
  cases l with
  | nil => rfl
  | cons c rest =>
    have hc : ¬(c = '%') := fun he => h (by simp [he])
    simp [tryComment, hc]

theorem tryLitOpt_eq_none {base l : Chars} {c₀ : Char} (hb : base.head? = some c₀)
    (h : l.head? ≠ some c₀) : tryLitOpt base l = none := by
  have h1 : (base ++ "*\x7d".data).isPrefixOf l = false :=
    isPrefixOf_eq_false_of_head (head?_append_of_head hb) h
  have h2 : (base ++ ['\x7d']).isPrefixOf l = false :=
    isPrefixOf_eq_false_of_head (head?_append_of_head hb) h
  simp [tryLitOpt, h1, h2]

theorem tryLit_eq_none {tok l : Chars} {c₀ : Char} (hb : tok.head? = some c₀)
    (h : l.head? ≠ some c₀) : tryLit tok l = none := by
  simp [tryLit, isPrefixOf_eq_false_of_head hb h]

theorem tryEnvAt_eq_none {l : Chars} (h : l.head? ≠ some '\\') : tryEnvAt l = none := by
  have hp : ∀ e : Chars, (beginTokOf e).isPrefixOf l = false := fun e =>
    isPrefixOf_eq_false_of_head (head?_append_of_head (l := "\\begin\x7b".data) rfl) h
  simp [tryEnvAt, listEnvNames, List.findSome?_cons, hp]

theorem findEnvMatches_eq_nil : ∀ (fuel : Nat) {s : Chars}, '\\' ∉ s →
    findEnvMatches fuel s = []
  | 0, s, _ => by cases s <;> rfl
  | _ + 1, [], _ => rfl
  | fuel + 1, c :: rest, h => by
    have hc : (c :: rest : Chars).head? ≠ some '\\' := by
      intro he
      have hce : c = '\\' := by simpa using he
      exact h (hce ▸ List.mem_cons_self c rest)
    simp only [findEnvMatches, tryEnvAt_eq_none hc]
    exact findEnvMatches_eq_nil fuel fun hm => h (List.mem_cons_of_mem c hm)

theorem tryUnwrapCmd_eq_none {cmd l : Chars} (h : l.head? ≠ some '\\') :
    tryUnwrapCmd cmd l = none := by
  have hp : ((('\\' :: cmd) ++ ['\x7b']) : Chars).isPrefixOf l = false :=
    isPrefixOf_eq_false_of_head rfl h
  simp only [tryUnwrapCmd]
  rw [hp]
  simp

theorem tryIncludegraphics_eq_none {l : Chars} (h : l.head? ≠ some '\\') :
    tryIncludegraphics l = none := by
  have h0 : includegraphicsTok.head? = some '\\' := rfl
  have hp : includegraphicsTok.isPrefixOf l = false := isPrefixOf_eq_false_of_head h0 h
  simp only [tryIncludegraphics, hp, Bool.false_eq_true, if_false]

theorem tryCommandWith_eq_none {white : List Chars} {l : Chars} (h : l.head? ≠ some '\\') :
    tryCommandWith white l = none := by
  cases l with
  | nil => rfl
  | cons c rest =>
    have hc : ¬(c = '\\') := fun he => h (by simp [he])
    simp [tryCommandWith, hc]

theorem delimLoop_eq_self {c₀ : Char} {op' cl s : Chars} (h : c₀ ∉ s) :
    ∀ (fuel i : Nat), delimLoop (c₀ :: op') cl fuel s i = s
  | 0, _ => rfl
  | fuel + 1, i => by simp [delimLoop, findFrom_eq_none h i]

theorem singleDollarLoop_eq_self {s : Chars} (h : '$' ∉ s) :
    ∀ (fuel i : Nat), singleDollarLoop fuel s i = s
  | 0, _ => rfl
  | fuel + 1, i => by simp [singleDollarLoop, findFrom_eq_none h i]

theorem removeFrametitleLoop_eq_self {s : Chars} (h : '\\' ∉ s) :
    ∀ (fuel : Nat), removeFrametitleLoop fuel s = s
  | 0 => rfl
  | fuel + 1 => by
    have hf : findFrom s frametitleMarker 0 = none := by
      rw [show frametitleMarker = '\\' :: "frametitle\x7b".data from rfl]
      exact findFrom_eq_none h 0
    simp [removeFrametitleLoop, hf]

theorem phaseComment_id {s : Chars} (h : '%' ∉ s) : phaseComment s = s :=
  subPass_id fun _ ht => tryComment_eq_none (suffix_head_ne ht h)

theorem phaseFrametitle_id {s : Chars} (h : '\\' ∉ s) : phaseFrametitle s = s :=
  removeFrametitleLoop_eq_self h s.length

theorem itemizePhase_id {s : Chars} (h : '\\' ∉ s) : itemizePhase s = s := by
  have h1 : findEnvMatches s.length s = [] := findEnvMatches_eq_nil _ h
  have h2 : containsSub s itemTok = false := by
    rw [show itemTok = '\\' :: "item".data from rfl]
    exact containsSub_eq_false h
  simp [itemizePhase, h1, h2]

theorem foldl_fix {β : Type} (f : Chars → β → Chars) (s : Chars)
    (l : List β) (h : ∀ b ∈ l, f s b = s) : l.foldl f s = s := by
  induction l with
  | nil => rfl
  | cons b bs ih =>
    rw [List.foldl_cons, h b (List.mem_cons_self b bs)]
    exact ih fun x hx => h x (List.mem_cons_of_mem b hx)

theorem mathEnvPass_id {s : Chars} (h : '\\' ∉ s) : mathEnvPass s = s := by
  refine foldl_fix _ s _ fun e _ => ?_
  have hb : subPass (tryLitOpt (beginPre e)) s = s :=
    subPass_id fun _ ht =>
      tryLitOpt_eq_none (head?_append_of_head (l := "\\begin\x7b".data) rfl) (suffix_head_ne ht h)
  rw [hb]
  exact subPass_id fun _ ht =>
    tryLitOpt_eq_none (head?_append_of_head (l := "\\end\x7b".data) rfl) (suffix_head_ne ht h)

theorem matrixEnvPass_id {s : Chars} (h : '\\' ∉ s) : matrixEnvPass s = s := by
  refine foldl_fix _ s _ fun e _ => ?_
  have hb : subPass (tryLit (beginTokOf e)) s = s :=
    subPass_id fun _ ht =>
      tryLit_eq_none (head?_append_of_head (l := "\\begin\x7b".data) rfl) (suffix_head_ne ht h)
  rw [hb]
  exact subPass_id fun _ ht =>
    tryLit_eq_none (head?_append_of_head (l := "\\end\x7b".data) rfl) (suffix_head_ne ht h)

theorem phaseDoubleDollar_id {s : Chars} (h : '$' ∉ s) : phaseDoubleDollar s = s := by
  rw [phaseDoubleDollar, show ("$$".data : Chars) = '$' :: "$".data from rfl]
  exact delimLoop_eq_self h s.length 0

theorem phaseSingleDollar_id {s : Chars} (h : '$' ∉ s) : phaseSingleDollar s = s :=
  singleDollarLoop_eq_self h (3 * s.length + 3) 0

theorem phaseParenMath_id {s : Chars} (h : '\\' ∉ s) : phaseParenMath s = s := by
  rw [phaseParenMath, show ("\\(".data : Chars) = '\\' :: "(".data from rfl]
  exact delimLoop_eq_self h s.length 0

theorem phaseBracketMath_id {s : Chars} (h : '\\' ∉ s) : phaseBracketMath s = s := by
  rw [phaseBracketMath, show ("\\[".data : Chars) = '\\' :: "[".data from rfl]
  exact delimLoop_eq_self h s.length 0

theorem phaseImage_id {s : Chars} (h : '\\' ∉ s) : phaseImage s = s :=
  subPass_id fun _ ht => tryIncludegraphics_eq_none (suffix_head_ne ht h)

theorem phaseUnwrapAll_id {s : Chars} (h : '\\' ∉ s) : phaseUnwrapAll s = s := by
  refine foldl_fix _ s _ fun c _ => ?_
  exact subPass_id fun _ ht => tryUnwrapCmd_eq_none (suffix_head_ne ht h)

theorem phaseCommands_id {s : Chars} (h : '\\' ∉ s) : phaseCommands s = s :=
  subPass_id fun _ ht => tryCommandWith_eq_none (suffix_head_ne ht h)

/-! ### The clean_latex_content fixed point on trigger-free text -/

/-- On text containing no '%', no backslash and no dollar sign whose lines
are already trimmed and non-blank (a fixed point of the final line
normalisation), clean_latex_content changes nothing. -/
theorem cleanCore_fixed {s : Chars} (h1 : '%' ∉ s) (h2 : '\\' ∉ s) (h3 : '$' ∉ s)
    (h4 : pyNormalizeLines s = s) : cleanCore s = s := by
  simp only [cleanCore]
  rw [phaseComment_id h1, phaseFrametitle_id h2, itemizePhase_id h2, mathEnvPass_id h2,
    matrixEnvPass_id h2, phaseDoubleDollar_id h3, phaseSingleDollar_id h3,
    phaseParenMath_id h2, phaseBracketMath_id h2, phaseImage_id h2, phaseUnwrapAll_id h2,
    phaseCommands_id h2, h4]
  by_cases hstrip : pyStrip s = []
  · rw [if_pos hstrip]
    have hs : s = [] := by
      conv_lhs => rw [← h4]
      rw [pyNormalizeLines, hstrip]
      rfl
    rw [hs]
    rfl
  · rw [if_neg hstrip]

/-! ### Structure of the aligned slide list -/

theorem findOutlineIdx_eq_none {frames : List Chars}
    (h : ∀ f ∈ frames, isOutlineFrame f = false) :
    ∀ (i : Nat), findOutlineIdx frames i = none := by
  induction frames with
  | nil => intro i; rfl
  | cons f rest ih =>
    intro i
    rw [findOutlineIdx, h f (List.mem_cons_self f rest)]
    simp only [Bool.false_eq_true, if_false]
    exact ih (fun x hx => h x (List.mem_cons_of_mem f hx)) (i + 1)

def dummySlide : Slide := { frame_number := 0, title := [], content := [] }

/-- Unfolding equation for the content loop when the head frame is kept. -/
theorem processFrames_cons_keep {f : Chars} {rest : List Chars} {idx n : Nat}
    (hf : hasTitlepage f = false) (hbreak : ¬ idx + 3 > n) :
    processFrames (f :: rest) idx n =
      { frame_number := idx + 3, title := extract_frame_titleCore f,
        content := slideContentOf f } :: processFrames rest (idx + 1) n := by
  rw [processFrames, if_neg (by rw [hf]; exact Bool.false_ne_true), if_neg hbreak]

/-- When no frame is skipped and the page budget is large enough, the
content loop emits one slide per frame, numbered consecutively from
idx + 3. -/
theorem processFrames_spec {frames : List Chars} (hT : ∀ f ∈ frames, hasTitlepage f = false) :
    ∀ (idx n : Nat), idx + frames.length + 2 ≤ n →
      (processFrames frames idx n).length = frames.length ∧
      ∀ i < frames.length,
        ((processFrames frames idx n).getD i dummySlide).frame_number = idx + 3 + i := by
  induction frames with
  | nil => exact fun idx n _ => ⟨rfl, fun i hi => absurd hi (Nat.not_lt_zero i)⟩
  | cons f rest ih =>
    intro idx n hn
    have hf : hasTitlepage f = false := hT f (List.mem_cons_self f rest)
    have hbreak : ¬ idx + 3 > n := by
      simp only [List.length_cons] at hn
      omega
    have ihr := ih (fun x hx => hT x (List.mem_cons_of_mem f hx)) (idx + 1) n
      (by simp only [List.length_cons] at hn; omega)
    rw [processFrames_cons_keep hf hbreak]
    refine ⟨by simp [ihr.1], fun i hi => ?_⟩
    match i with
    | 0 => rfl
    | i + 1 =>
      rw [List.getD_cons_succ]
      have hi' : i < rest.length := by simpa using hi
      rw [ihr.2 i hi']
      omega

/-- Every slide the content loop emits is derived from some frame of the
working list that does not contain \titlepage: its title is the extracted
title and its content the cleaned-or-placeholder content of that frame. -/
theorem processFrames_sound {frames : List Chars} :
    ∀ {idx n : Nat} {s : Slide}, s ∈ processFrames frames idx n →
      ∃ f ∈ frames, hasTitlepage f = false ∧
        s.title = extract_frame_titleCore f ∧
        s.content = slideContentOf f := by
  induction frames with
  | nil => intro idx n s hs; rw [processFrames] at hs; cases hs
  | cons f rest ih =>
    intro idx n s hs
    rw [processFrames] at hs
    by_cases hf : hasTitlepage f = true
    · rw [if_pos hf] at hs
      obtain ⟨g, hg, hrest⟩ := ih hs
      exact ⟨g, List.mem_cons_of_mem f hg, hrest⟩
    · rw [if_neg hf] at hs
      by_cases hbreak : idx + 3 > n
      · rw [if_pos hbreak] at hs
        cases hs
      · rw [if_neg hbreak] at hs
        rcases List.mem_cons.mp hs with rfl | hs2
        · exact ⟨f, List.mem_cons_self f rest, Bool.not_eq_true _ ▸ hf,
            by with_reducible rfl, by with_reducible rfl⟩
        · obtain ⟨g, hg, hrest⟩ := ih hs2
          exact ⟨g, List.mem_cons_of_mem f hg, hrest⟩

theorem slideContentOf_strip_ne (f : Chars) : pyStrip (slideContentOf f) ≠ [] := by
  rw [slideContentOf]
  by_cases h : pyStrip (cleanCore f) = []
  · rw [if_pos h]
    refine pyStrip_ne_nil (x := 'T') ?_ (by decide)
    exact List.mem_append_left _ (List.mem_append_left _ (by decide))
  · rw [if_neg h]
    exact h

/-! ## Claim theorems -/

set_option maxRecDepth 40000

/-- Claim C5 (confirmed): page-count resolution always yields an integer
at least 1; with no usable probe result it is span count + 2, and in
particular 4 detected spans with a failing probe resolve to 6. -/
theorem c5_page_count_resolution :
    (∀ (probe : Option Nat) (count : Nat), 1 ≤ resolvePageCount probe count) ∧
    (∀ count : Nat, resolvePageCount none count = count + 2) ∧
    resolvePageCount none 4 = 6 := by
  refine ⟨fun probe count => ?_, fun count => rfl, rfl⟩
  cases probe with
  | none => exact (by omega : 1 ≤ count + 2)
  | some n =>
    by_cases hn : n = 0
    · subst hn
      exact (by omega : 1 ≤ count + 2)
    · simp only [resolvePageCount, Option.getD_some, if_neg hn]
      omega

/-- Claim C1 counterexample: a single frame containing \titlepage with an
estimated page count: the count resolves to 3 but the parse output has
only 2 units, so the output length does not match the resolved count. -/
theorem c1_counterexample :
    resolvePageCount none 1 = 3 ∧
    (parseStructured ["\\titlepage".data] [] [] none).length = 2 := by
  exact ⟨rfl, by decide⟩

/-- Claim C1 (amended): on the structured path, when the page count is the
estimate (no probe), no frame is detected as an outline and no frame
contains \titlepage, the output length equals the resolved count and the
ordinal of the unit at index i is i + 1. -/
theorem c1_amended_cardinality (frames : List Chars) (t a : Chars)
    (hT : ∀ f ∈ frames, hasTitlepage f = false)
    (hO : ∀ f ∈ frames, isOutlineFrame f = false) :
    (parseStructured frames t a none).length = resolvePageCount none frames.length ∧
    ∀ i < (parseStructured frames t a none).length,
      ((parseStructured frames t a none).getD i dummySlide).frame_number = i + 1 := by
  have hres : resolvePageCount none frames.length = frames.length + 2 := rfl
  have halign : parseStructured frames t a none =
      titleSlideOf t a :: defaultOutlineSlide :: processFrames frames 0 (frames.length + 2) := by
    rw [parseStructured, hres, alignSlides, findOutlineIdx_eq_none hO 0]
  have hspec := processFrames_spec hT 0 (frames.length + 2) (by omega)
  rw [halign, hres]
  constructor
  · simp [hspec.1]
  · intro i hi
    match i with
    | 0 => rfl
    | 1 => rfl
    | i + 2 =>
      rw [List.getD_cons_succ, List.getD_cons_succ]
      have hi2 : i < frames.length := by
        simp only [List.length_cons, hspec.1] at hi
        omega
      rw [hspec.2 i hi2]
      omega

/-- Witness for the amended C1 at a concrete one-frame input. -/
theorem c1_amended_cardinality_witness :
    (parseStructured ["hi".data] [] [] none).length = resolvePageCount none 1 ∧
    ((parseStructured ["hi".data] [] [] none).getD 2 dummySlide).frame_number = 3 := by
  have h := c1_amended_cardinality ["hi".data] [] [] (by decide) (by decide)
  refine ⟨h.1, ?_⟩
  have h2 := h.2 2 (by rw [h.1]; decide)
  exact h2

/-- Claim C2 counterexample: one span, probe-resolved count 6 — the claim
predicts the span's content spread over units 3 through 6 (so at least 6
units, with continuation flags), but the parser emits exactly 3 units and
its slide record carries no continuation field at all. -/
theorem c2_counterexample :
    resolvePageCount (some 6) 1 = 6 ∧
    (parseStructured ["\\frametitle\x7bT\x7d\nbody".data] [] [] (some 6)).length = 3 := by
  exact ⟨rfl, by decide⟩

/-- Claim C2 (amended): with exactly one span and a resolved count of 6,
the output is exactly three units — Title, Outline and a single content
unit carrying the span's title and content; no unit is repeated or marked
as a continuation (the slide record has no such field). -/
theorem c2_amended_single_span (f t a : Chars)
    (hT : hasTitlepage f = false) (hO : isOutlineFrame f = false) :
    parseStructured [f] t a (some 6) =
      [titleSlideOf t a, defaultOutlineSlide,
       { frame_number := 3, title := extract_frame_titleCore f,
         content := slideContentOf f }] := by
  have hfind : findOutlineIdx [f] 0 = none := by
    rw [findOutlineIdx, hO]
    simp [findOutlineIdx]
  rw [parseStructured]
  rw [show resolvePageCount (some 6) [f].length = 6 from rfl, alignSlides, hfind]
  rw [processFrames_cons_keep hT (by omega)]
  rfl

/-- Witness for the amended C2 at a concrete span. -/
theorem c2_amended_single_span_witness :
    parseStructured ["body".data] [] [] (some 6) =
      [titleSlideOf [] [], defaultOutlineSlide,
       { frame_number := 3, title := extract_frame_titleCore "body".data,
         content := slideContentOf "body".data }] :=
  c2_amended_single_span "body".data [] [] (by decide) (by decide)

/-- Claim C6 counterexample: two consecutive frames with the identical
title "A" — the claim predicts the second is skipped, but the parser
emits both as adjacent units 3 and 4 sharing the title. -/
theorem c6_counterexample :
    parseStructured ["\\frametitle\x7bA\x7d\nx".data, "\\frametitle\x7bA\x7d\ny".data]
        [] [] none =
      [{ frame_number := 1, title := "Title Page".data, content := "Title: \nAuthor: ".data },
       { frame_number := 2, title := "Outline".data,
         content := "This slide shows the outline of the presentation.".data },
       { frame_number := 3, title := "A".data, content := "x".data },
       { frame_number := 4, title := "A".data, content := "y".data }] := by decide

/-- Claim C6 (amended): the parser performs no adjacent-title
deduplication — it emits one unit per non-skipped frame unconditionally,
so two consecutive frames yield two consecutive units whatever their
titles are (in particular identical ones). -/
theorem c6_amended_no_dedup (f g t a : Chars)
    (hfT : hasTitlepage f = false) (hgT : hasTitlepage g = false)
    (hfO : isOutlineFrame f = false) (hgO : isOutlineFrame g = false) :
    parseStructured [f, g] t a none =
      [titleSlideOf t a, defaultOutlineSlide,
       { frame_number := 3, title := extract_frame_titleCore f,
         content := slideContentOf f },
       { frame_number := 4, title := extract_frame_titleCore g,
         content := slideContentOf g }] := by
  have hfind : findOutlineIdx [f, g] 0 = none := by
    rw [findOutlineIdx, hfO]
    simp [findOutlineIdx, hgO]
  rw [parseStructured]
  rw [show resolvePageCount none [f, g].length = 4 from rfl, alignSlides, hfind]
  rw [processFrames_cons_keep hfT (by omega)]
  rw [processFrames_cons_keep hgT (by omega)]
  rfl

/-- Witness for the amended C6 with two frames carrying the same title. -/
theorem c6_amended_no_dedup_witness :
    parseStructured ["\\frametitle\x7bA\x7d\nx".data, "\\frametitle\x7bA\x7d\nx".data]
        [] [] none =
      [titleSlideOf [] [], defaultOutlineSlide,
       { frame_number := 3,
         title := extract_frame_titleCore "\\frametitle\x7bA\x7d\nx".data,
         content := slideContentOf "\\frametitle\x7bA\x7d\nx".data },
       { frame_number := 4,
         title := extract_frame_titleCore "\\frametitle\x7bA\x7d\nx".data,
         content := slideContentOf "\\frametitle\x7bA\x7d\nx".data }] :=
  c6_amended_no_dedup "\\frametitle\x7bA\x7d\nx".data "\\frametitle\x7bA\x7d\nx".data [] []
    (by decide) (by decide) (by decide) (by decide)

/-- Claim C7 counterexample: on the rendered-artifact path, a content page
whose text is a single line becomes a unit whose content is the empty
string (the line is consumed as the title and nothing remains), violating
the non-empty-content invariant; no placeholder is substituted on this
path. -/
theorem c7_counterexample :
    (parse_pdf_file_model (some "T\nA\x0cOutline x\x0cHello".data) false).getD 2 dummySlide =
      { frame_number := 3, title := "Hello".data, content := [] } := by decide

/-- Claim C7 (amended): on the structured path the invariant does hold —
every emitted unit's content is non-empty after trimming (the title and
outline units carry non-empty synthesized or checked text, and the content
loop substitutes the generated placeholder whenever cleaning yields only
whitespace). -/
theorem c7_amended_structured_nonempty (frames : List Chars) (t a : Chars)
    (probe : Option Nat) (s : Slide) (hs : s ∈ parseStructured frames t a probe) :
    pyStrip s.content ≠ [] := by
  rw [parseStructured, alignSlides] at hs
  cases hfind : findOutlineIdx frames 0 with
  | none =>
    rw [hfind] at hs
    rcases List.mem_cons.mp hs with rfl | hs1
    · refine pyStrip_ne_nil (x := 'T') ?_ (by decide)
      exact List.mem_append_left _ (List.mem_append_left _ (List.mem_append_left _ (by decide)))
    · rcases List.mem_cons.mp hs1 with rfl | hs2
      · refine pyStrip_ne_nil (x := 'T') ?_ (by decide)
        decide
      · obtain ⟨f, _, _, _, hcont⟩ := processFrames_sound hs2
        rw [hcont]
        exact slideContentOf_strip_ne f
  | some k =>
    rw [hfind] at hs
    rcases List.mem_cons.mp hs with rfl | hs1
    · refine pyStrip_ne_nil (x := 'T') ?_ (by decide)
      exact List.mem_append_left _ (List.mem_append_left _ (List.mem_append_left _ (by decide)))
    · rcases List.mem_cons.mp hs1 with rfl | hs2
      · have hgoal : pyStrip (if pyStrip (cleanCore (frames.getD k [])) = []
            then defaultOutlineText.data else cleanCore (frames.getD k [])) ≠ [] := by
          by_cases hoc : pyStrip (cleanCore (frames.getD k [])) = []
          · rw [if_pos hoc]
            refine pyStrip_ne_nil (x := 'T') ?_ (by decide)
            decide
          · rw [if_neg hoc]
            exact hoc
        with_reducible exact hgoal
      · obtain ⟨f, _, _, _, hcont⟩ := processFrames_sound hs2
        rw [hcont]
        exact slideContentOf_strip_ne f

/-- Witness for the amended C7 at the title unit of an empty parse. -/
theorem c7_amended_structured_nonempty_witness :
    pyStrip (titleSlideOf "T".data "A".data).content ≠ [] :=
  c7_amended_structured_nonempty [] "T".data "A".data none
    (titleSlideOf "T".data "A".data) (by decide)

/-- Claim C10 counterexample: a frame containing \titlepage that also
matches the outline keywords is not excluded from the output — its
cleaned text becomes the Outline unit's content, so the emitted sequence
does contain a unit derived from a \titlepage frame. -/
theorem c10_counterexample :
    hasTitlepage "\\titlepage Outline".data = true ∧
    (parseStructured ["\\titlepage Outline".data] [] [] none).getD 1 dummySlide =
      { frame_number := 2, title := "Outline".data,
        content := cleanCore "\\titlepage Outline".data } ∧
    cleanCore "\\titlepage Outline".data ≠ defaultOutlineText.data := by
  refine ⟨by decide, by decide, by decide⟩

/-- Claim C10 (amended): the content-distribution loop itself does exclude
\titlepage frames — every unit it emits is derived from a frame whose raw
text does not contain \titlepage (only the separately produced Outline
unit can leak text of such a frame). -/
theorem c10_amended_content_units (frames : List Chars) (idx n : Nat) (s : Slide)
    (hs : s ∈ processFrames frames idx n) :
    ∃ f ∈ frames, hasTitlepage f = false ∧
      s.title = extract_frame_titleCore f ∧
      s.content = slideContentOf f :=
  processFrames_sound hs

/-- Witness for the amended C10 at a concrete one-frame loop run. -/
theorem c10_amended_content_units_witness :
    ∃ f ∈ ["hi".data], hasTitlepage f = false ∧
      ({ frame_number := 3, title := extract_frame_titleCore "hi".data,
         content := slideContentOf "hi".data } : Slide).title = extract_frame_titleCore f ∧
      ({ frame_number := 3, title := extract_frame_titleCore "hi".data,
         content := slideContentOf "hi".data } : Slide).content = slideContentOf f :=
  c10_amended_content_units ["hi".data] 0 5
    { frame_number := 3, title := extract_frame_titleCore "hi".data,
      content := slideContentOf "hi".data } (by decide)

/-- Claim C8 counterexample: a missing source file does not propagate an
error — the entry point catches it and returns the empty list (here with
no same-basename PDF available). -/
theorem c8_counterexample :
    parse_latex_entry none ReadOutcome.notFound none none = Except.ok [] := rfl

/-- Claim C8 (amended): a missing source is caught and degrades to the
same-basename PDF parse (or the empty list), an unreadable source is
caught and yields the empty list — neither aborts; conversely, a readable
source in which no frame pattern matches at all raises an uncaught error
(the not-yet-assigned page-count local of line 479), so missing source is
not the single fatal condition in either direction. -/
theorem c8_amended_error_behaviour (samePdf : Option (List Slide)) (probe : Option Nat)
    (content : Chars) (hc : scanFrames content = []) (hp : positionalFrames content = []) :
    parse_latex_entry none ReadOutcome.notFound samePdf probe = Except.ok (samePdf.getD []) ∧
    parse_latex_entry none ReadOutcome.readError samePdf probe = Except.ok [] ∧
    parse_latex_entry none (ReadOutcome.ok content) samePdf probe = Except.error () := by
  refine ⟨rfl, rfl, ?_⟩
  simp [parse_latex_entry, hc, hp]

/-- Witness for the amended C8 at a frameless source text. -/
theorem c8_amended_error_behaviour_witness :
    parse_latex_entry none ReadOutcome.notFound (some [dummySlide]) none =
      Except.ok ((some [dummySlide]).getD []) ∧
    parse_latex_entry none ReadOutcome.readError (some [dummySlide]) none = Except.ok [] ∧
    parse_latex_entry none (ReadOutcome.ok "hello".data) (some [dummySlide]) none =
      Except.error () :=
  c8_amended_error_behaviour (some [dummySlide]) none "hello".data (by decide) (by decide)

/-- Claim C4 counterexample: normalization is not idempotent — a percent
sign inside list-item text survives the first pass (no newline follows it
in the original), but the re-emitted bullet list places a newline after
it, so the second pass strips it as a comment. -/
theorem c4_counterexample :
    clean_latex_content (clean_latex_content "x\n\\item a%b\\item c") ≠
      clean_latex_content "x\n\\item a%b\\item c" := by decide

/-- Claim C4 (amended): normalization is idempotent on inputs without
comment, command or math-delimiter characters whose lines are already
trimmed and non-blank; such inputs are fixed points, hence normalizing a
second time changes nothing. -/
theorem c4_amended_idempotent_on_plain (s : String)
    (h1 : '%' ∉ s.data) (h2 : '\\' ∉ s.data) (h3 : '$' ∉ s.data)
    (h4 : pyNormalizeLines s.data = s.data) :
    clean_latex_content (clean_latex_content s) = clean_latex_content s := by
  have hfix : cleanCore s.data = s.data := cleanCore_fixed h1 h2 h3 h4
  show String.mk (cleanCore (String.mk (cleanCore s.data)).data) = String.mk (cleanCore s.data)
  rw [hfix]
  rw [show (String.mk s.data).data = s.data from rfl, hfix]

/-- Witness for the amended C4 on plain two-line text. -/
theorem c4_amended_idempotent_witness :
    clean_latex_content (clean_latex_content "hello\nworld") =
      clean_latex_content "hello\nworld" :=
  c4_amended_idempotent_on_plain "hello\nworld" (by decide) (by decide) (by decide)
    (by decide)

/-! ### Balanced-brace scanning lemmas for title extraction -/

theorem braceEndAux_stop (l : Chars) (k : Nat) : braceEndAux l 0 k = some k := by
  rw [braceEndAux.eq_def]
  simp

theorem braceEndAux_skip : ∀ (a : Chars) {l : Chars} {cnt k : Nat},
    (∀ x ∈ a, x ≠ '{' ∧ x ≠ '}') → cnt ≠ 0 →
    braceEndAux (a ++ l) cnt k = braceEndAux l cnt (k + a.length)
  | [], l, cnt, k, _, _ => by simp
  | c :: a', l, cnt, k, ha, hcnt => by
    obtain ⟨h1, h2⟩ := ha c (List.mem_cons_self c a')
    rw [List.cons_append, braceEndAux.eq_def, if_neg hcnt]
    simp only [if_neg h1, if_neg h2]
    rw [braceEndAux_skip a' (fun x hx => ha x (List.mem_cons_of_mem c hx)) hcnt]
    congr 1
    simp only [List.length_cons]
    omega

theorem braceEndAux_openStep {l : Chars} {cnt k : Nat} (h : cnt ≠ 0) :
    braceEndAux ('{' :: l) cnt k = braceEndAux l (cnt + 1) (k + 1) := by
  rw [braceEndAux.eq_def, if_neg h]
  simp

theorem braceEndAux_closeStep {l : Chars} {cnt k : Nat} (h : cnt ≠ 0) :
    braceEndAux ('}' :: l) cnt k = braceEndAux l (cnt - 1) (k + 1) := by
  rw [braceEndAux.eq_def, if_neg h]
  simp

/-- The balanced scan over a one-level-nested title body consumes exactly
the body and its closing brace. -/
theorem braceEndAux_nested (a b c post : Chars)
    (ha : ∀ x ∈ a, x ≠ '{' ∧ x ≠ '}') (hb : ∀ x ∈ b, x ≠ '{' ∧ x ≠ '}')
    (hc : ∀ x ∈ c, x ≠ '{' ∧ x ≠ '}') :
    braceEndAux (a ++ '{' :: (b ++ '}' :: (c ++ '}' :: post))) 1 0 =
      some (a.length + b.length + c.length + 3) := by
  have s1 : braceEndAux (a ++ '{' :: (b ++ '}' :: (c ++ '}' :: post))) 1 0 =
      braceEndAux ('{' :: (b ++ '}' :: (c ++ '}' :: post))) 1 (0 + a.length) :=
    braceEndAux_skip a ha (by decide)
  have s2 : braceEndAux ('{' :: (b ++ '}' :: (c ++ '}' :: post))) 1 (0 + a.length) =
      braceEndAux (b ++ '}' :: (c ++ '}' :: post)) 2 (0 + a.length + 1) := by
    rw [braceEndAux_openStep (by decide)]
  have s3 : braceEndAux (b ++ '}' :: (c ++ '}' :: post)) 2 (0 + a.length + 1) =
      braceEndAux ('}' :: (c ++ '}' :: post)) 2 (0 + a.length + 1 + b.length) :=
    braceEndAux_skip b hb (by decide)
  have s4 : braceEndAux ('}' :: (c ++ '}' :: post)) 2 (0 + a.length + 1 + b.length) =
      braceEndAux (c ++ '}' :: post) 1 (0 + a.length + 1 + b.length + 1) := by
    rw [braceEndAux_closeStep (by decide)]
  have s5 : braceEndAux (c ++ '}' :: post) 1 (0 + a.length + 1 + b.length + 1) =
      braceEndAux ('}' :: post) 1 (0 + a.length + 1 + b.length + 1 + c.length) :=
    braceEndAux_skip c hc (by decide)
  have s6 : braceEndAux ('}' :: post) 1 (0 + a.length + 1 + b.length + 1 + c.length) =
      braceEndAux post 0 (0 + a.length + 1 + b.length + 1 + c.length + 1) := by
    rw [braceEndAux_closeStep (by decide)]
  rw [s1, s2, s3, s4, s5, s6, braceEndAux_stop]
  congr 1
  omega

/-- Tier 1 on a span of the shape
pre ++ \frametitle{ ++ a ++ { ++ b ++ } ++ c ++ } ++ post
(with brace-free a, b, c and backslash-free pre) recovers the stripped
full nested title a{b}c. -/
theorem frameTitleTier1_nested (pre a b c post : Chars)
    (hpre : '\\' ∉ pre)
    (ha : ∀ x ∈ a, x ≠ '{' ∧ x ≠ '}') (hb : ∀ x ∈ b, x ≠ '{' ∧ x ≠ '}')
    (hc : ∀ x ∈ c, x ≠ '{' ∧ x ≠ '}') :
    frameTitleTier1
        (pre ++ (frametitleMarker ++ (a ++ '{' :: (b ++ '}' :: (c ++ '}' :: post))))) =
      pyStrip (a ++ '{' :: (b ++ '}' :: c)) := by
  have hfind : findFrom
      (pre ++ (frametitleMarker ++ (a ++ '{' :: (b ++ '}' :: (c ++ '}' :: post)))))
      frametitleMarker 0 = some pre.length := by
    rw [show frametitleMarker = '\\' :: "frametitle\x7b".data from rfl]
    exact findFrom_append_hit pre hpre (isPrefixOf_append_self _ _)
  have hdrop : (pre ++ (frametitleMarker ++ (a ++ '{' :: (b ++ '}' :: (c ++ '}' :: post))))).drop
      (pre.length + 12) = a ++ '{' :: (b ++ '}' :: (c ++ '}' :: post)) := by
    rw [List.drop_append]
    exact List.drop_left' (by decide)
  have hscan := braceEndAux_nested a b c post ha hb hc
  have htake : (a ++ '{' :: (b ++ '}' :: (c ++ '}' :: post))).take
      (a.length + b.length + c.length + 3 - 1) = a ++ '{' :: (b ++ '}' :: c) := by
    have hshape : a ++ '{' :: (b ++ '}' :: (c ++ '}' :: post)) =
        (a ++ '{' :: (b ++ '}' :: c)) ++ '}' :: post := by
      simp [List.append_assoc]
    have hlen : a.length + b.length + c.length + 3 - 1 =
        (a ++ '{' :: (b ++ '}' :: c)).length := by
      simp [List.length_append]
      omega
    rw [hshape, hlen]
    exact List.take_left _ _
  rw [frameTitleTier1, hfind]
  simp only [hdrop, hscan, htake]

/-- Claim C3 (confirmed): for a span whose title marker wraps text with one
level of nested brace-delimited markup, title extraction returns the full
(stripped) inner text with only the outer braces removed — the balanced
scan does not truncate at the first inner closing brace. -/
theorem c3_balanced_title_extraction (pre a b c post : Chars)
    (hpre : '\\' ∉ pre)
    (ha : ∀ x ∈ a, x ≠ '{' ∧ x ≠ '}') (hb : ∀ x ∈ b, x ≠ '{' ∧ x ≠ '}')
    (hc : ∀ x ∈ c, x ≠ '{' ∧ x ≠ '}')
    (hne : pyStrip (a ++ '{' :: (b ++ '}' :: c)) ≠ untitledFrame) :
    extract_frame_titleCore
        (pre ++ (frametitleMarker ++ (a ++ '{' :: (b ++ '}' :: (c ++ '}' :: post))))) =
      pyStrip (a ++ '{' :: (b ++ '}' :: c)) := by
  have h1 := frameTitleTier1_nested pre a b c post hpre ha hb hc
  simp only [extract_frame_titleCore, h1, if_neg hne]

/-- Witness for C3 at the concrete nested title of the specification. -/
theorem c3_balanced_title_extraction_witness :
    extract_frame_titleCore "\\frametitle\x7bOuter \x7binner\x7d Text\x7d".data =
      "Outer \x7binner\x7d Text".data := by
  have h := c3_balanced_title_extraction [] "Outer ".data "inner".data " Text".data []
    (by decide) (by decide) (by decide) (by decide) (by decide)
  rw [show ("\\frametitle\x7bOuter \x7binner\x7d Text\x7d".data : Chars) =
      [] ++ (frametitleMarker ++
        ("Outer ".data ++ '{' :: ("inner".data ++ '}' :: (" Text".data ++ '}' :: []))))
    from by decide]
  rw [h]
  decide

/-- Claim C9 counterexample: a source consisting of exactly one frame with
bracketed options is matched both by the standard pattern (span
"[t]hello") and by the options pattern (span "hello"); the later hit is
not dropped, so the single source frame contributes two spans. -/
theorem c9_counterexample :
    scanFrames "\\begin\x7bframe\x7d[t]hello\\end\x7bframe\x7d".data =
      ["[t]hello".data, "hello".data] := by decide

/-- One step of the pattern-1 scanner at a position where the begin tag
matches and a later end tag exists: the body up to the nearest end tag is
captured. -/
theorem findall1Go_head (fuel : Nat) (X : Chars) (k : Nat)
    (hfind : findFrom X endFrameTok 0 = some k) :
    ∃ rest, findall1Go (fuel + 1) (beginFrameTok ++ X) = X.take k :: rest := by
  have hcons : beginFrameTok ++ X = '\\' :: ("begin\x7bframe\x7d".data ++ X) := rfl
  rw [hcons]
  simp only [findall1Go]
  rw [← hcons, isPrefixOf_append_self]
  have hdrop : (beginFrameTok ++ X).drop 13 = X := List.drop_left' (by decide)
  simp only [if_true, hdrop, hfind]
  exact ⟨_, rfl⟩

/-- One step of the pattern-2 scanner at a position where the options form
matches: the bracketed options and the body up to the end tag are
captured. -/
theorem findall2Go_head (fuel : Nat) (Y : Chars) (k e : Nat)
    (hk : findFrom Y [']'] 0 = some k)
    (he : findFrom Y endFrameTok (k + 1) = some e) :
    ∃ rest, findall2Go (fuel + 1) (beginFrameOptTok ++ Y) =
      (Y.take k, (Y.drop (k + 1)).take (e - (k + 1))) :: rest := by
  have hcons : beginFrameOptTok ++ Y = '\\' :: ("begin\x7bframe\x7d[".data ++ Y) := rfl
  rw [hcons]
  simp only [findall2Go]
  rw [← hcons, isPrefixOf_append_self]
  have hdrop : (beginFrameOptTok ++ Y).drop 14 = Y := List.drop_left' (by decide)
  simp only [if_true, hdrop, hk, he]
  exact ⟨_, rfl⟩

/-- Claim C9 (amended): the scanner concatenates the hits of all four
strategies with no offset tracking, deduplication or sorting, so a single
source frame carrying bracketed options contributes two distinct spans:
the standard pattern's options-inclusive span and the options pattern's
body span (for any backslash-free options and body text). -/
theorem c9_amended_concat_no_dedup (opts body : Chars)
    (ho : '\\' ∉ opts) (hb : '\\' ∉ body) (hbr : ']' ∉ opts) :
    ('[' :: (opts ++ ']' :: body)) ∈
      scanFrames (beginFrameTok ++ (('[' :: (opts ++ ']' :: body)) ++ endFrameTok)) ∧
    body ∈ scanFrames (beginFrameTok ++ (('[' :: (opts ++ ']' :: body)) ++ endFrameTok)) ∧
    ('[' :: (opts ++ ']' :: body)) ≠ body := by
  have hpre1 : '\\' ∉ ('[' :: (opts ++ ']' :: body) : Chars) := by
    intro hmem
    rcases List.mem_cons.mp hmem with h | h
    · exact absurd h (by decide)
    · rcases List.mem_append.mp h with h2 | h2
      · exact ho h2
      · rcases List.mem_cons.mp h2 with h3 | h3
        · exact absurd h3 (by decide)
        · exact hb h3
  have hf1 : findFrom (('[' :: (opts ++ ']' :: body)) ++ endFrameTok) endFrameTok 0 =
      some ('[' :: (opts ++ ']' :: body) : Chars).length := by
    rw [show endFrameTok = '\\' :: "end\x7bframe\x7d".data from rfl]
    exact findFrom_append_hit _ hpre1 (isPrefixOf_self _)
  have hlen1 : (beginFrameTok ++ (('[' :: (opts ++ ']' :: body)) ++ endFrameTok)).length =
      ((('[' :: (opts ++ ']' :: body)) ++ endFrameTok).length + 12) + 1 := by
    rw [List.length_append, show beginFrameTok.length = 13 from by decide]
    omega
  obtain ⟨rest1, hrest1⟩ :=
    findall1Go_head ((('[' :: (opts ++ ']' :: body)) ++ endFrameTok).length + 12)
      (('[' :: (opts ++ ']' :: body)) ++ endFrameTok) _ hf1
  have htake1 : (('[' :: (opts ++ ']' :: body)) ++ endFrameTok).take
      ('[' :: (opts ++ ']' :: body) : Chars).length = '[' :: (opts ++ ']' :: body) :=
    List.take_left _ _
  have hm1 : ('[' :: (opts ++ ']' :: body)) ∈
      findall1 (beginFrameTok ++ (('[' :: (opts ++ ']' :: body)) ++ endFrameTok)) := by
    rw [findall1, hlen1, hrest1, htake1]
    exact List.mem_cons_self _ _
  have hSY : beginFrameTok ++ (('[' :: (opts ++ ']' :: body)) ++ endFrameTok) =
      beginFrameOptTok ++ (opts ++ ']' :: (body ++ endFrameTok)) := by
    rw [show beginFrameOptTok = beginFrameTok ++ ['['] from by decide]
    simp [List.append_assoc]
  have hk2 : findFrom (opts ++ ']' :: (body ++ endFrameTok)) [']'] 0 = some opts.length :=
    findFrom_append_hit opts hbr (by simp [List.isPrefixOf])
  have hdropY : (opts ++ ']' :: (body ++ endFrameTok)).drop (opts.length + 1) =
      body ++ endFrameTok := by
    rw [List.drop_append]
    rfl
  have he2 : findFrom (opts ++ ']' :: (body ++ endFrameTok)) endFrameTok (opts.length + 1) =
      some ((opts.length + 1) + body.length) := by
    simp only [findFrom, hdropY]
    rw [show endFrameTok = '\\' :: "end\x7bframe\x7d".data from rfl]
    rw [findAux_append_hit body 0 hb (isPrefixOf_self _)]
    norm_num
  have hlen2 : (beginFrameOptTok ++ (opts ++ ']' :: (body ++ endFrameTok))).length =
      ((opts ++ ']' :: (body ++ endFrameTok)).length + 13) + 1 := by
    rw [List.length_append, show beginFrameOptTok.length = 14 from by decide]
    omega
  obtain ⟨rest2, hrest2⟩ :=
    findall2Go_head ((opts ++ ']' :: (body ++ endFrameTok)).length + 13)
      (opts ++ ']' :: (body ++ endFrameTok)) opts.length ((opts.length + 1) + body.length)
      hk2 he2
  have hcap2 : ((opts ++ ']' :: (body ++ endFrameTok)).drop (opts.length + 1)).take
      (((opts.length + 1) + body.length) - (opts.length + 1)) = body := by
    rw [hdropY, show ((opts.length + 1) + body.length) - (opts.length + 1) = body.length
      from by omega]
    exact List.take_left _ _
  have hm2 : body ∈
      findall2 (beginFrameTok ++ (('[' :: (opts ++ ']' :: body)) ++ endFrameTok)) := by
    rw [findall2, hSY, hlen2, hrest2]
    refine List.mem_map.mpr ⟨_, List.mem_cons_self _ _, ?_⟩
    exact hcap2
  refine ⟨?_, ?_, ?_⟩
  · simp only [scanFrames]
    exact List.mem_append_left _ (List.mem_append_left _ (List.mem_append_left _ hm1))
  · simp only [scanFrames]
    exact List.mem_append_left _ (List.mem_append_left _ (List.mem_append_right _ hm2))
  · intro h
    have hlen := congrArg List.length h
    simp [List.length_append] at hlen
    omega

/-- Witness for the amended C9 at the concrete options frame. -/
theorem c9_amended_concat_no_dedup_witness :
    ('[' :: ("t".data ++ ']' :: "hello".data)) ∈
      scanFrames (beginFrameTok ++ (('[' :: ("t".data ++ ']' :: "hello".data)) ++ endFrameTok)) ∧
    "hello".data ∈
      scanFrames (beginFrameTok ++ (('[' :: ("t".data ++ ']' :: "hello".data)) ++ endFrameTok)) ∧
    ('[' :: ("t".data ++ ']' :: "hello".data)) ≠ "hello".data :=
  c9_amended_concat_no_dedup "t".data "hello".data (by decide) (by decide) (by decide)
